import Mathlib

/-!
# registration-login-app: the account service of `server.js`

A shallow embedding of the request handlers of `server.js` (register, login, the
`authenticateToken` middleware, contribution append/read, password update/reset)
over an explicit document store, followed by the properties proved about them.

Modelling conventions.

* The `users` collection is a list of documents in insertion order.  `findOne`
  returns the first document whose `username` equals the filter value.
* `bcryptjs` and `jsonwebtoken` are external libraries.  The hashing function and
  the signing/serialisation function are parameters (`Hasher`, `Jwt`); what the
  libraries do around them (argument type checks, the `exp` claim and its check)
  is written out.  `SECRET_KEY` is taken as configured and is part of `Jwt`.
* The store is taken as reachable: database calls fail only through schema
  validation or the unique index.
* Time is the clock `jsonwebtoken` reads: whole seconds since the epoch.
* A string's `length` is its number of UTF-16 code units, as in JavaScript.
* Body fields that the handlers pass to `length`, `bcrypt`, a truthiness test or
  `$push` are `JsVal`s: absent, or any JSON value.  The `username` field of a
  body is taken to be a string.
* What the JavaScript engine and mongoose do with value shapes whose treatment
  is not written out here is a parameter (`Platform`): the comparison of an
  object's own `length` property with a number, and `$push` operands other than
  scalars and the `$each` form with `$position` and `$slice`.
-/

namespace RegistrationLogin

/-! ## Values, documents, responses -/

/-- A body field as a handler sees it after `const { a, b } = req.body`: absent
(`undefined`) or a JSON value.  A number is given by the text JavaScript's
`String(n)` renders for the double it was parsed to: `0` for both zeros,
`9007199254740992` for the literal `9007199254740993`, `1e+21` for `1e21`.  An
object is the list of its own properties, with distinct keys. -/
inductive JsVal where
  | undefined
  | null
  | bool (b : Bool)
  | num (text : String)
  | str (s : String)
  | arr (items : List JsVal)
  | obj (fields : List (String × JsVal))

/-- What the JavaScript engine and mongoose do with value shapes whose treatment
is not written out in this file.  `lengthLess w n` is `w < n` for the value `w`
of an object's own `length` property (`none`: the conversion to a primitive
throws).  `pushOther v` is the effect on the stored array of
`$push: { contributions: v }` for an operand `v` that `pushOperand` does not
spell out (`none`: the update is rejected). -/
structure Platform where
  lengthLess : JsVal → Nat → Option Bool
  pushOther : JsVal → Option (List String → List String)

/-- JavaScript `s.length` for a string: the number of UTF-16 code units. -/
def utf16Length (s : String) : Nat :=
  (s.data.map fun c => if c.toNat < 65536 then 1 else 2).sum

/-- Evaluation of `v.length < n`.  `none` is a `TypeError`, raised by reading a
property of `undefined` or `null`.  Booleans and numbers have no `length`
property, so the comparison is `undefined < n`, which is `false`; so it is for
an object without an own `length` property.  An array's `length` is its number
of items. -/
def lengthLt (P : Platform) (v : JsVal) (n : Nat) : Option Bool :=
  match v with
  | .undefined => none
  | .null => none
  | .bool _ => some false
  | .num _ => some false
  | .str s => some (decide (utf16Length s < n))
  | .arr items => some (decide (items.length < n))
  | .obj fields =>
    match fields.lookup "length" with
    | none => some false
    | some w => P.lengthLess w n

/-- JavaScript truthiness of a body field (`!v` is its negation). -/
def truthy (v : JsVal) : Bool :=
  match v with
  | .undefined => false
  | .null => false
  | .bool b => b
  | .num text => decide (text ≠ "0")
  | .str s => decide (s ≠ "")
  | .arr _ => true
  | .obj _ => true

/-- A document of the `users` collection (`userSchema`). -/
structure User where
  username : String
  password : String
  contributions : List String
  deriving DecidableEq, Repr

/-- The `users` collection, in insertion order. -/
abbrev Store := List User

/-- Payload of a response. -/
inductive ResBody where
  | message (m : String)
  | token (m : String) (token : String)
  | contributions (cs : List String)
  deriving DecidableEq, Repr

/-- What `res.status(s).json(b)` sends. -/
structure Response where
  status : Nat
  body : ResBody
  deriving DecidableEq, Repr

/-- How a handler invocation ends: it sent a response, or an exception left the
handler (its promise rejected) without any response being sent by it. -/
inductive Outcome where
  | responded (r : Response)
  | threw
  deriving DecidableEq, Repr

/-- Shorthand for `res.status(s).json({ message: m })`. -/
def respond (s : Nat) (m : String) : Outcome :=
  .responded { status := s, body := .message m }

/-! ## The store (mongoose) -/

/-- The call `User.findOne({ username })`: first document with that username. -/
def findOne (db : Store) (username : String) : Option User :=
  db.find? fun u => u.username == username

/-- The `required: true` validator of a `String` path: the value must be a
string of non-zero length. -/
def checkRequired (v : String) : Bool :=
  decide (v ≠ "")

/-- Saving a new document (`new User(...)` then `save()`).  `none` is a rejected save: a
validation error on a required path, or a duplicate key on the unique index of
`username`. -/
def saveNew (db : Store) (u : User) : Option Store :=
  if checkRequired u.username && checkRequired u.password then
    match findOne db u.username with
    | some _ => none
    | none => some (db ++ [u])
  else none

/-- Apply `f` to the first document whose username is `username`. -/
def updateFirst (username : String) (f : User → User) : Store → Store
  | [] => []
  | u :: rest =>
    if u.username == username then f u :: rest
    else u :: updateFirst username f rest

/-- Saving a found document after `user.password = h`: the modified path is
validated, then written to the document that was read. -/
def savePassword (db : Store) (username : String) (h : String) : Option Store :=
  if checkRequired h then
    some (updateFirst username (fun u => { u with password := h }) db)
  else none

/-- Casting one scalar to the `String` element type of `contributions`: a string
is kept, a number or a boolean is rendered by its `toString()`.  `none` for the
values that are not such scalars. -/
def castScalar (v : JsVal) : Option String :=
  match v with
  | .str s => some s
  | .num text => some text
  | .bool b => some (if b then "true" else "false")
  | _ => none

/-- Casting the items of a `$each` array, all of them scalars. -/
def castAll : List JsVal → Option (List String)
  | [] => some []
  | v :: vs =>
    match castScalar v, castAll vs with
    | some s, some ss => some (s :: ss)
    | _, _ => none

/-- Value of a decimal digit. -/
def digitValue (c : Char) : Option Nat :=
  if '0' ≤ c ∧ c ≤ '9' then some (c.toNat - 48) else none

/-- Value of a run of decimal digits, continuing from `acc`. -/
def parseDigits : List Char → Nat → Option Nat
  | [], acc => some acc
  | c :: cs, acc =>
    match digitValue c with
    | none => none
    | some d => parseDigits cs (acc * 10 + d)

/-- The integer a number stands for, when its text is a plain decimal integer of
the signed 32-bit range. -/
def int32Of (v : JsVal) : Option Int :=
  match v with
  | .num text =>
    match text.data with
    | [] => none
    | '-' :: ds =>
      match ds, parseDigits ds 0 with
      | _ :: _, some n => if n ≤ 2147483648 then some (-(n : Int)) else none
      | _, _ => none
    | ds =>
      match parseDigits ds 0 with
      | some n => if n < 2147483648 then some (n : Int) else none
      | none => none
  | _ => none

/-- Reading a `$position` or `$slice` entry: an absent or `null` entry is no
modifier (`some none`), a 32-bit integer is that modifier; `none` for any other
value. -/
def modifierOf (v : Option JsVal) : Option (Option Int) :=
  match v with
  | none => some none
  | some .null => some none
  | some w =>
    match int32Of w with
    | some k => some (some k)
    | none => none

/-- Where `$push` puts the new items `es` in the stored array `cs`: at the end
without `$position`; at index `k` from the start for `k ≥ 0` (at the end when `k`
exceeds the length); at `-k` items before the end for `k < 0` (at the start when
that exceeds the length). -/
def insertAt (pos : Option Int) (es cs : List String) : List String :=
  match pos with
  | none => cs ++ es
  | some k =>
    if 0 ≤ k then cs.take (min k.toNat cs.length) ++ es ++ cs.drop (min k.toNat cs.length)
    else cs.take (cs.length - k.natAbs) ++ es ++ cs.drop (cs.length - k.natAbs)

/-- What `$slice` keeps of the array after the insertion: everything without
`$slice`; the first `k` items for `k ≥ 0` (none for `0`); the last `-k` items
for `k < 0`. -/
def applySlice (sl : Option Int) (xs : List String) : List String :=
  match sl with
  | none => xs
  | some k => if 0 ≤ k then xs.take k.toNat else xs.drop (xs.length - k.natAbs)

/-- The operand `{ $each: [...], $position: k, $slice: n }` of `$push` (the last two
optional), whose items are scalars: the items are cast and inserted, then the
array is sliced.  `none` when the object is not of this form. -/
def eachOperand (fields : List (String × JsVal)) : Option (List String → List String) :=
  if fields.all fun kv => decide (kv.1 = "$each" ∨ kv.1 = "$position" ∨ kv.1 = "$slice") then
    match fields.lookup "$each" with
    | some (.arr items) =>
      match castAll items, modifierOf (fields.lookup "$position"),
        modifierOf (fields.lookup "$slice") with
      | some es, some pos, some sl => some fun cs => applySlice sl (insertAt pos es cs)
      | _, _, _ => none
    | _ => none
  else none

/-- The effect of `$push: { contributions: v }` on the stored array (`none`: the
update is rejected).  A scalar is cast and appended; an object of the `$each`
form is applied with its modifiers; every other operand is left to the
platform. -/
def pushOperand (P : Platform) (v : JsVal) : Option (List String → List String) :=
  match castScalar v with
  | some s => some fun cs => cs ++ [s]
  | none =>
    match v with
    | .obj fields =>
      match eachOperand fields with
      | some f => some f
      | none => P.pushOther v
    | _ => P.pushOther v

/-- The call `User.findOneAndUpdate({ username }, { $push: ... })` with array effect `f`:
applied to the first matching document; with no match nothing is written and no
error is raised. -/
def applyPush (db : Store) (username : String) (f : List String → List String) : Store :=
  updateFirst username (fun u => { u with contributions := f u.contributions }) db

/-- The same call with a string operand `c`: `c` is appended. -/
def pushContribution (db : Store) (username : String) (c : String) : Store :=
  applyPush db username fun cs => cs ++ [c]

/-! ## The password hasher (bcryptjs) -/

/-- The hashing primitives: `hash p salt` is the hash string produced for
password `p` when the library draws `salt`; `compare p h` tells whether `p`
verifies against the stored string `h`. -/
structure Hasher where
  hash : String → Nat → String
  compare : String → String → Bool

/-- The call `bcrypt.hash(v, 10)`.  `none` is the rejection with `Illegal arguments` for a
value that is not a string. -/
def bcryptHash (H : Hasher) (v : JsVal) (salt : Nat) : Option String :=
  match v with
  | .str s => some (H.hash s salt)
  | _ => none

/-- The call `bcrypt.compare(v, h)`.  `none` is the rejection with `Illegal arguments` for a
value that is not a string. -/
def bcryptCompare (H : Hasher) (v : JsVal) (h : String) : Option Bool :=
  match v with
  | .str s => some (H.compare s h)
  | _ => none

/-! ## Tokens (jsonwebtoken) -/

/-- The payload of a token: `{ username, iat, exp }`, times in seconds. -/
structure Claims where
  username : String
  iat : Nat
  exp : Nat
  deriving DecidableEq, Repr

/-- Serialisation and signature under `SECRET_KEY`: `encode` produces the signed
string of a payload; `decode` returns the payload of a string whose signature
checks, `none` otherwise. -/
structure Jwt where
  encode : Claims → String
  decode : String → Option Claims

/-- The call `jwt.sign({ username }, SECRET_KEY, { expiresIn })` at clock `now`, with
`expiresIn` in seconds. -/
def jwtSign (J : Jwt) (username : String) (expiresIn : Nat) (now : Nat) : String :=
  J.encode { username := username, iat := now, exp := now + expiresIn }

/-- The call `jwt.verify(token, SECRET_KEY, cb)` at clock `now`: `none` is `cb(err)` (bad
signature, or `now >= exp`), `some c` is `cb(null, c)`. -/
def jwtVerify (J : Jwt) (token : String) (now : Nat) : Option Claims :=
  match J.decode token with
  | none => none
  | some c => if c.exp ≤ now then none else some c

/-- JavaScript `s.split(" ")` on the characters of `s`. -/
def splitSpace : List Char → List (List Char)
  | [] => [[]]
  | c :: cs =>
    if c = ' ' then [] :: splitSpace cs
    else
      match splitSpace cs with
      | [] => [[c]]
      | w :: ws => (c :: w) :: ws

/-- The expression `authHeader && authHeader.split(" ")[1]`, reduced to the token it
yields when that value is truthy. -/
def bearerToken (authHeader : Option String) : Option String :=
  match authHeader with
  | none => none
  | some h =>
    match (splitSpace h.data)[1]? with
    | none => none
    | some t => if t = [] then none else some (String.mk t)

/-- Result of the middleware: a response was sent and the route handler is not
run, or `next()` was called with `req.user` set. -/
inductive AuthResult where
  | reject (r : Response)
  | next (user : Claims)
  deriving DecidableEq, Repr

/-- The middleware `authenticateToken`. -/
def authenticateToken (J : Jwt) (now : Nat) (authHeader : Option String) : AuthResult :=
  match bearerToken authHeader with
  | none => .reject { status := 401, body := .message "Access token missing" }
  | some token =>
    match jwtVerify J token now with
    | none => .reject { status := 403, body := .message "Invalid or expired token" }
    | some user => .next user

/-! ## Route handlers -/

/-- The message of every `catch` branch. -/
def internalError : Outcome :=
  respond 500 "Internal server error"

/-- The handler `app.post("/register")`. -/
def register (P : Platform) (H : Hasher) (salt : Nat) (db : Store) (username : String)
    (password : JsVal) : Outcome × Store :=
  match findOne db username with
  | some _ => (respond 400 "User already exists", db)
  | none =>
    match lengthLt P password 6 with
    | none => (.threw, db)
    | some true => (respond 400 "Password must be at least 6 characters long", db)
    | some false =>
      match bcryptHash H password salt with
      | none => (internalError, db)
      | some hashedPassword =>
        match saveNew db { username := username, password := hashedPassword, contributions := [] } with
        | none => (internalError, db)
        | some db' => (respond 201 "User registered successfully", db')

/-- The handler `app.post("/login")`; `now` is the clock read by `jwt.sign`. -/
def login (H : Hasher) (J : Jwt) (now : Nat) (db : Store) (username : String) (password : JsVal) :
    Outcome :=
  match findOne db username with
  | none => respond 404 "User not found"
  | some user =>
    match bcryptCompare H password user.password with
    | none => internalError
    | some false => respond 401 "Invalid credentials"
    | some true =>
      .responded
        { status := 200, body := .token "Login successful" (jwtSign J user.username 3600 now) }

/-- The handler of `app.post("/contribution")`, entered with `req.user = user`. -/
def addContribution (P : Platform) (db : Store) (user : Claims) (contribution : JsVal) :
    Outcome × Store :=
  if truthy contribution then
    match pushOperand P contribution with
    | none => (internalError, db)
    | some f =>
      (respond 200 "Contribution added successfully", applyPush db user.username f)
  else (respond 400 "Contribution data is required", db)

/-- The handler of `app.get("/contribution")`, entered with `req.user = user`. -/
def listContributions (db : Store) (user : Claims) : Outcome :=
  match findOne db user.username with
  | none => respond 404 "User not found"
  | some u => .responded { status := 200, body := .contributions u.contributions }

/-- The handler of `app.put("/update-password")`, entered with `req.user = user`. -/
def updatePassword (P : Platform) (H : Hasher) (salt : Nat) (db : Store) (user : Claims)
    (currentPassword newPassword : JsVal) : Outcome × Store :=
  match lengthLt P newPassword 6 with
  | none => (.threw, db)
  | some true => (respond 400 "New password must be at least 6 characters long", db)
  | some false =>
    match findOne db user.username with
    | none => (respond 404 "User not found", db)
    | some u =>
      match bcryptCompare H currentPassword u.password with
      | none => (internalError, db)
      | some false => (respond 401 "Current password is incorrect", db)
      | some true =>
        match bcryptHash H newPassword salt with
        | none => (internalError, db)
        | some hashedNewPassword =>
          match savePassword db user.username hashedNewPassword with
          | none => (internalError, db)
          | some db' => (respond 200 "Password updated successfully", db')

/-- The handler `app.post("/reset-password")`. -/
def resetPassword (P : Platform) (H : Hasher) (salt : Nat) (db : Store) (username : String)
    (newPassword : JsVal) : Outcome × Store :=
  match lengthLt P newPassword 6 with
  | none => (.threw, db)
  | some true => (respond 400 "New password must be at least 6 characters long", db)
  | some false =>
    match findOne db username with
    | none => (respond 404 "User not found", db)
    | some _ =>
      match bcryptHash H newPassword salt with
      | none => (internalError, db)
      | some hashedNewPassword =>
        match savePassword db username hashedNewPassword with
        | none => (internalError, db)
        | some db' => (respond 200 "Password reset successfully", db')

/-- The handler of `app.get("/administration")`. -/
def administration (user : Claims) : Outcome :=
  respond 200 ("Welcome to Administration, " ++ user.username)

/-- The handler of `app.get("/profile")`. -/
def profile (user : Claims) : Outcome :=
  respond 200 ("Profile details for " ++ user.username)

/-! ## Routes and request sequences -/

/-- A route `app.METHOD(path, authenticateToken, handler)`: the handler runs only
after the middleware called `next()`. -/
def secured (J : Jwt) (now : Nat) (authHeader : Option String) (db : Store)
    (handler : Claims → Outcome × Store) : Outcome × Store :=
  match authenticateToken J now authHeader with
  | .reject r => (.responded r, db)
  | .next user => handler user

/-- The requests of the account service. -/
inductive Request where
  | register (username : String) (password : JsVal)
  | login (username : String) (password : JsVal)
  | addContribution (authHeader : Option String) (contribution : JsVal)
  | listContributions (authHeader : Option String)
  | updatePassword (authHeader : Option String) (currentPassword newPassword : JsVal)
  | resetPassword (username : String) (newPassword : JsVal)
  | administration (authHeader : Option String)
  | profile (authHeader : Option String)

/-- What the environment supplies while a request is handled: the clock and the
salt a hashing call draws. -/
structure Tick where
  now : Nat
  salt : Nat
  deriving DecidableEq, Repr

/-- Dispatch of one request on store `db`. -/
def handle (P : Platform) (H : Hasher) (J : Jwt) (db : Store) (t : Tick) (r : Request) :
    Outcome × Store :=
  match r with
  | .register u p => register P H t.salt db u p
  | .login u p => (login H J t.now db u p, db)
  | .addContribution a c => secured J t.now a db fun user => addContribution P db user c
  | .listContributions a => secured J t.now a db fun user => (listContributions db user, db)
  | .updatePassword a c n =>
    secured J t.now a db fun user => updatePassword P H t.salt db user c n
  | .resetPassword u n => resetPassword P H t.salt db u n
  | .administration a => secured J t.now a db fun user => (administration user, db)
  | .profile a => secured J t.now a db fun user => (profile user, db)

/-- The store after handling a sequence of requests one at a time. -/
def run (P : Platform) (H : Hasher) (J : Jwt) (db : Store) : List (Tick × Request) → Store
  | [] => db
  | (t, r) :: rest => run P H J (handle P H J db t r).2 rest

/-- The document `register` writes for `(u, p)` with hashing salt `salt`. -/
def newUser (H : Hasher) (salt : Nat) (u p : String) : User :=
  { username := u, password := H.hash p salt, contributions := [] }

/-! ## The error taxonomy -/

/-- Whether an outcome is a response with one of the statuses of the taxonomy:
200/201, 400, 401, 403, 404, 500. -/
def inTaxonomy (o : Outcome) : Bool :=
  match o with
  | .responded r => decide (r.status ∈ [200, 201, 400, 401, 403, 404, 500])
  | .threw => false

/-- Whether evaluating `v.length < 6` ends without an exception. -/
def hasLength (P : Platform) (v : JsVal) : Bool :=
  (lengthLt P v 6).isSome

/-- Whether the length test a handler makes on a body field ends without an
exception. -/
def lengthFieldsPresent (P : Platform) (r : Request) : Bool :=
  match r with
  | .register _ p => hasLength P p
  | .updatePassword _ _ n => hasLength P n
  | .resetPassword _ n => hasLength P n
  | _ => true

/-- Whether the request is a `POST /contribution` whose `contribution` is a JSON
object or array. -/
def structuredContribution (r : Request) : Bool :=
  match r with
  | .addContribution _ (.arr _) => true
  | .addContribution _ (.obj _) => true
  | _ => false

/-! ## Concrete collaborators used to evaluate the handlers -/

/-- A hasher for evaluation: the hash is a tag, the salt length and the password;
verification recomputes it. -/
def demoHasher : Hasher where
  hash p _ := "$2a$10$" ++ p
  compare p h := decide (h = "$2a$10$" ++ p)

/-- A token codec for evaluation that knows one signed string. -/
def demoJwt : Jwt where
  encode _ := "eyJ.alice.sig"
  decode t := if t = "eyJ.alice.sig" then some { username := "alice", iat := 100, exp := 3700 } else none

/-- A platform for evaluation: an object's `length` property never compares below
the bound, and every operand left to the platform is rejected. -/
def demoPlatform : Platform where
  lengthLess _ _ := some false
  pushOther _ := none

/-- A hasher that, like bcrypt, reads only the first 72 bytes of a password
(characters here, which are bytes for ASCII passwords). -/
def truncHasher : Hasher where
  hash p _ := "$2a$10$" ++ String.mk (p.data.take 72)
  compare p h := decide (h = "$2a$10$" ++ String.mk (p.data.take 72))

/-- A password of 73 characters: 72 times `a`, then `c`. -/
def longPassword (c : Char) : String :=
  String.mk (List.replicate 72 'a' ++ [c])

/-- Unary numeral of `n`, closed by `0`. -/
def encNat : Nat → List Char
  | 0 => ['0']
  | n + 1 => '1' :: encNat n

/-- Reading a unary numeral off the front of a list of characters. -/
def decNat : List Char → Option (Nat × List Char)
  | [] => none
  | c :: cs =>
    if c = '0' then some (0, cs)
    else if c = '1' then
      match decNat cs with
      | some (n, rest) => some (n + 1, rest)
      | none => none
    else none

/-- A name with its spaces and percent signs escaped. -/
def encName : List Char → List Char
  | [] => []
  | c :: cs =>
    if c = ' ' then '%' :: 's' :: encName cs
    else if c = '%' then '%' :: '%' :: encName cs
    else c :: encName cs

/-- Undoing the escapes of `encName`. -/
def decName : List Char → List Char
  | [] => []
  | [c] => [c]
  | c :: d :: cs =>
    if c = '%' then (if d = 's' then ' ' else d) :: decName cs
    else c :: decName (d :: cs)

/-- A token codec for evaluation that writes the payload out in full: the two
times in unary, then the escaped username.  It decodes every string it
produces back to the payload. -/
def unaryJwt : Jwt where
  encode c := String.mk (encNat c.iat ++ (encNat c.exp ++ encName c.username.data))
  decode t :=
    match decNat t.data with
    | none => none
    | some (iat, r1) =>
      match decNat r1 with
      | none => none
      | some (exp, r2) => some { username := String.mk (decName r2), iat := iat, exp := exp }


/-! ## Lemmas on the store -/

theorem findOne_nil (n : String) : findOne [] n = none := rfl

theorem findOne_cons (u : User) (db : Store) (n : String) :
    findOne (u :: db) n = if u.username = n then some u else findOne db n := by
  unfold findOne
  by_cases h : u.username = n <;> simp [List.find?_cons, h]

theorem findOne_username {db : Store} {n : String} {u : User} (h : findOne db n = some u) :
    u.username = n := by
  unfold findOne at h
  simpa using List.find?_some h

theorem findOne_mem {db : Store} {n : String} {u : User} (h : findOne db n = some u) :
    u ∈ db := by
  unfold findOne at h
  exact List.mem_of_find?_eq_some h

theorem findOne_eq_none_iff (db : Store) (n : String) :
    findOne db n = none ↔ n ∉ db.map User.username := by
  induction db with
  | nil => simp [findOne_nil]
  | cons u db ih =>
    rw [findOne_cons]
    by_cases h : u.username = n
    · simp [h]
    · simp only [h, if_false, ih, List.map_cons, List.mem_cons, not_or]
      constructor
      · intro h2
        exact ⟨fun e => h e.symm, h2⟩
      · intro h2
        exact h2.2

theorem findOne_append_single (db : Store) (u : User) (n : String) :
    findOne (db ++ [u]) n =
      match findOne db n with
      | some x => some x
      | none => if u.username = n then some u else none := by
  induction db with
  | nil => simp [findOne_cons, findOne_nil]
  | cons x db ih =>
    simp only [List.cons_append, findOne_cons]
    by_cases h : x.username = n
    · simp [h]
    · simp [h, ih]

theorem updateFirst_map_username (n : String) (f : User → User)
    (hf : ∀ u, (f u).username = u.username) (db : Store) :
    (updateFirst n f db).map User.username = db.map User.username := by
  induction db with
  | nil => rfl
  | cons x db ih =>
    unfold updateFirst
    by_cases h : x.username = n
    · simp [h, hf]
    · simp [h, ih]

theorem updateFirst_length (n : String) (f : User → User) (db : Store) :
    (updateFirst n f db).length = db.length := by
  induction db with
  | nil => rfl
  | cons x db ih =>
    unfold updateFirst
    by_cases h : x.username = n
    · simp [h]
    · simp [h, ih]

theorem updateFirst_of_findOne_none (n : String) (f : User → User) (db : Store)
    (h : findOne db n = none) : updateFirst n f db = db := by
  induction db with
  | nil => rfl
  | cons x db ih =>
    rw [findOne_cons] at h
    unfold updateFirst
    by_cases hx : x.username = n
    · simp [hx] at h
    · simp only [hx, if_false] at h
      simp [hx, ih h]

theorem findOne_updateFirst_same (n : String) (f : User → User)
    (hf : ∀ u, (f u).username = u.username) (db : Store) :
    findOne (updateFirst n f db) n = (findOne db n).map f := by
  induction db with
  | nil => rfl
  | cons x db ih =>
    unfold updateFirst
    by_cases h : x.username = n
    · simp [h, findOne_cons, hf]
    · simp [h, findOne_cons, ih]

theorem findOne_updateFirst_other (n m : String) (f : User → User)
    (hf : ∀ u, (f u).username = u.username) (hnm : m ≠ n) (db : Store) :
    findOne (updateFirst n f db) m = findOne db m := by
  induction db with
  | nil => rfl
  | cons x db ih =>
    unfold updateFirst
    by_cases h : x.username = n
    · have hx : ¬ x.username = m := by
        intro e
        exact hnm (e.symm.trans h)
      simp [h, findOne_cons, hf, hnm.symm]
    · simp [h, findOne_cons, ih]

/-- Shape of an update: the first document named `n` is replaced in place, all
documents before and after it are kept. -/
theorem updateFirst_split (n : String) (f : User → User) (db : Store) (u : User)
    (h : findOne db n = some u) :
    ∃ pre post, db = pre ++ u :: post ∧ (∀ x ∈ pre, x.username ≠ n) ∧
      updateFirst n f db = pre ++ f u :: post := by
  induction db with
  | nil => simp [findOne_nil] at h
  | cons x db ih =>
    rw [findOne_cons] at h
    by_cases hx : x.username = n
    · simp only [hx, if_true, Option.some.injEq] at h
      subst h
      refine ⟨[], db, rfl, ?_, ?_⟩
      · intro y hy
        simp at hy
      · unfold updateFirst
        simp [hx]
    · simp only [hx, if_false] at h
      obtain ⟨pre, post, h1, h2, h3⟩ := ih h
      refine ⟨x :: pre, post, ?_, ?_, ?_⟩
      · simp [h1]
      · intro y hy
        rcases List.mem_cons.mp hy with e | e
        · subst e
          exact hx
        · exact h2 y e
      · unfold updateFirst
        simp [hx, h3]


/-! ## Lemmas on the handlers -/

theorem register_created (P : Platform) (H : Hasher) (salt : Nat) (db : Store) (u p : String)
    (hu : findOne db u = none) (hlen : 6 ≤ utf16Length p) (hne : u ≠ "")
    (hh : H.hash p salt ≠ "") :
    register P H salt db u (.str p) =
      (respond 201 "User registered successfully", db ++ [newUser H salt u p]) := by
  have hl : ¬ utf16Length p < 6 := by omega
  simp [register, hu, lengthLt, hl, bcryptHash, saveNew, checkRequired, hne, hh, newUser]

theorem register_created_inv (P : Platform) (H : Hasher) (salt : Nat) (db db' : Store) (u : String)
    (pw : JsVal)
    (h : register P H salt db u pw = (respond 201 "User registered successfully", db')) :
    ∃ p, pw = .str p ∧ findOne db u = none ∧ 6 ≤ utf16Length p ∧ u ≠ "" ∧
      H.hash p salt ≠ "" ∧ db' = db ++ [newUser H salt u p] := by
  unfold register at h
  cases hf : findOne db u with
  | some x => simp [hf, respond] at h
  | none =>
    simp only [hf] at h
    cases pw with
    | undefined => simp [lengthLt, respond] at h
    | null => simp [lengthLt, respond] at h
    | bool b => simp [lengthLt, bcryptHash, internalError, respond] at h
    | num n => simp [lengthLt, bcryptHash, internalError, respond] at h
    | arr items =>
      simp only [lengthLt, bcryptHash] at h
      split at h <;> simp [internalError, respond] at h
    | obj fields =>
      simp only [lengthLt, bcryptHash] at h
      repeat' split at h
      all_goals simp [internalError, respond] at h
    | str p =>
      by_cases hl : utf16Length p < 6
      · simp [lengthLt, hl, respond] at h
      · by_cases hu : u = ""
        · simp [lengthLt, hl, bcryptHash, saveNew, checkRequired, hu, internalError,
            respond] at h
        · by_cases hh : H.hash p salt = ""
          · simp [lengthLt, hl, bcryptHash, saveNew, checkRequired, hh, internalError,
              respond] at h
          · simp [lengthLt, hl, bcryptHash, saveNew, checkRequired, hu, hh, hf,
              respond] at h
            exact ⟨p, rfl, rfl, by omega, hu, hh, by rw [← h]; rfl⟩

theorem findOne_after_register (H : Hasher) (salt : Nat) (db : Store) (u p : String)
    (hu : findOne db u = none) :
    findOne (db ++ [newUser H salt u p]) u = some (newUser H salt u p) := by
  rw [findOne_append_single, hu]
  simp [newUser]

theorem findOne_after_register_other (H : Hasher) (salt : Nat) (db : Store) (u p v : String)
    (hv : findOne db v = none) (hvu : v ≠ u) :
    findOne (db ++ [newUser H salt u p]) v = none := by
  rw [findOne_append_single, hv]
  simp [newUser, hvu.symm]


/-! ## Registration and login -/

/-- C1: in a store that holds neither username, once `POST /register` of `(u, p)`
(`p` of at least 6 code units) has answered 201, `POST /login` of `(u, p)` answers
200 with the token signed for `u`, given that the hasher verifies `p` against the
hash it produced; `POST /login` of `(u, q)` answers 401 for every `q` the hasher
does not verify against that hash; and `POST /login` of `(v, pw)` answers 404 for
every other username `v` absent from the store, whatever `pw` is (the lookup comes
before the comparison). -/
theorem login_after_register (P : Platform) (H : Hasher) (J : Jwt) (salt now : Nat) (db db' : Store)
    (u p : String) (hu : findOne db u = none) (hlen : 6 ≤ utf16Length p)
    (hreg : register P H salt db u (.str p) =
      (respond 201 "User registered successfully", db'))
    (hver : H.compare p (H.hash p salt) = true) :
    login H J now db' u (.str p) =
        .responded
          { status := 200, body := .token "Login successful" (jwtSign J u 3600 now) } ∧
      (∀ q : String, H.compare q (H.hash p salt) = false →
        login H J now db' u (.str q) = respond 401 "Invalid credentials") ∧
      (∀ (v : String) (pw : JsVal), findOne db v = none → v ≠ u →
        login H J now db' v pw = respond 404 "User not found") := by
  have hne : u ≠ "" ∧ H.hash p salt ≠ "" := by
    obtain ⟨p', hp, _, _, h1, h2, _⟩ := register_created_inv P H salt db db' u _ hreg
    cases hp
    exact ⟨h1, h2⟩
  rw [register_created P H salt db u p hu hlen hne.1 hne.2] at hreg
  have hdb : db' = db ++ [newUser H salt u p] := (Prod.mk.inj hreg).2.symm
  subst hdb
  refine ⟨?_, ?_, ?_⟩
  · unfold login
    rw [findOne_after_register H salt db u p hu]
    simp [bcryptCompare, newUser, hver]
  · intro q hq
    unfold login
    rw [findOne_after_register H salt db u p hu]
    simp [bcryptCompare, newUser, hq]
  · intro v pw hv hvu
    unfold login
    rw [findOne_after_register_other H salt db u p v hv hvu]

/-- Evaluation of C1 on the empty store with user `alice`. -/
theorem login_after_register_witness :
    login demoHasher demoJwt 100 [newUser demoHasher 0 "alice" "secret1"] "alice"
        (.str "secret1") =
        .responded
          { status := 200,
            body := .token "Login successful" (jwtSign demoJwt "alice" 3600 100) } ∧
      (∀ q : String, demoHasher.compare q (demoHasher.hash "secret1" 0) = false →
        login demoHasher demoJwt 100 [newUser demoHasher 0 "alice" "secret1"] "alice"
          (.str q) = respond 401 "Invalid credentials") ∧
      (∀ (v : String) (pw : JsVal), findOne [] v = none → v ≠ "alice" →
        login demoHasher demoJwt 100 [newUser demoHasher 0 "alice" "secret1"] v pw =
          respond 404 "User not found") :=
  login_after_register demoPlatform demoHasher demoJwt 0 100 [] [newUser demoHasher 0 "alice" "secret1"]
    "alice" "secret1" (by decide) (by decide) (by decide) (by decide)

/-- C4: when `POST /register` of `(u, p1)` has answered 201, a following
`POST /register` of `(u, p2)` answers 400 `User already exists` for every value
of `p2` (short, absent or not a string included) and returns the store as the
first call left it: the store of before followed by the one document written for
`u`, which is also what a lookup of `u` finds. -/
theorem register_twice_conflict (P : Platform) (H : Hasher) (salt1 salt2 : Nat) (db db1 : Store)
    (u p1 : String) (p2 : JsVal)
    (h1 : register P H salt1 db u (.str p1) =
      (respond 201 "User registered successfully", db1)) :
    register P H salt2 db1 u p2 = (respond 400 "User already exists", db1) ∧
      db1 = db ++ [newUser H salt1 u p1] ∧
      findOne db1 u = some (newUser H salt1 u p1) ∧
      (db1.filter fun x => decide (x.username = u)) = [newUser H salt1 u p1] := by
  obtain ⟨p, hp, hu, _, _, _, hdb⟩ := register_created_inv P H salt1 db db1 u _ h1
  cases hp
  subst hdb
  have hf := findOne_after_register H salt1 db u p1 hu
  refine ⟨?_, rfl, hf, ?_⟩
  · unfold register
    rw [hf]
  · have hnone : (db.filter fun x => decide (x.username = u)) = [] := by
      rw [List.filter_eq_nil_iff]
      intro x hx
      have := (findOne_eq_none_iff db u).mp hu
      simp only [decide_eq_true_eq]
      intro e
      exact this (List.mem_map.mpr ⟨x, hx, e⟩)
    simp [List.filter_append, hnone, newUser]

/-- Evaluation of C4: `alice` registered twice on the empty store. -/
theorem register_twice_conflict_witness :
    register demoPlatform demoHasher 1 [newUser demoHasher 0 "alice" "secret1"] "alice" (.str "x") =
        (respond 400 "User already exists", [newUser demoHasher 0 "alice" "secret1"]) ∧
      [newUser demoHasher 0 "alice" "secret1"] = [] ++ [newUser demoHasher 0 "alice" "secret1"] ∧
      findOne [newUser demoHasher 0 "alice" "secret1"] "alice" =
        some (newUser demoHasher 0 "alice" "secret1") ∧
      ([newUser demoHasher 0 "alice" "secret1"].filter fun x => decide (x.username = "alice")) =
        [newUser demoHasher 0 "alice" "secret1"] :=
  register_twice_conflict demoPlatform demoHasher 0 1 [] [newUser demoHasher 0 "alice" "secret1"]
    "alice" "secret1" (.str "x") (by decide)

/-- C5, as stated, fails: the empty username is absent from the empty store and
`secret1` has 7 code units, yet `POST /register` answers 500 (the `required`
validator of `username` rejects the save) and the store stays empty. -/
theorem register_empty_username_not_created :
    findOne [] "" = none ∧ 6 ≤ utf16Length "secret1" ∧
      register demoPlatform demoHasher 0 [] "" (.str "secret1") = (internalError, []) ∧
      (register demoPlatform demoHasher 0 [] "" (.str "secret1")).1 ≠
        respond 201 "User registered successfully" := by
  decide

/-- C5 (amended): for every username absent from the store and every string
password, `POST /register` answers 400 and leaves the store unchanged when the
password has fewer than 6 code units (the empty string included); when it has 6
or more, the username is not empty and the hash produced is not empty, it answers
201 and the store gains exactly one document: that username, the hasher's output
for the password, and no contributions. -/
theorem register_length_policy (P : Platform) (H : Hasher) (salt : Nat) (db : Store) (u p : String)
    (hu : findOne db u = none) :
    (utf16Length p < 6 →
        register P H salt db u (.str p) =
          (respond 400 "Password must be at least 6 characters long", db)) ∧
      (6 ≤ utf16Length p → u ≠ "" → H.hash p salt ≠ "" →
        register P H salt db u (.str p) =
          (respond 201 "User registered successfully",
            db ++ [{ username := u, password := H.hash p salt, contributions := [] }])) := by
  refine ⟨?_, ?_⟩
  · intro hl
    simp [register, hu, lengthLt, hl]
  · intro hl hne hh
    exact register_created P H salt db u p hu hl hne hh

/-- Evaluation of C5 (amended) at the boundary: 5 code units are refused, 6 are
accepted, the empty password is refused. -/
theorem register_length_policy_witness :
    register demoPlatform demoHasher 0 [] "alice" (.str "12345") =
        (respond 400 "Password must be at least 6 characters long", []) ∧
      register demoPlatform demoHasher 0 [] "alice" (.str "") =
        (respond 400 "Password must be at least 6 characters long", []) ∧
      register demoPlatform demoHasher 0 [] "alice" (.str "123456") =
        (respond 201 "User registered successfully",
          [{ username := "alice", password := "$2a$10$123456", contributions := [] }]) :=
  ⟨(register_length_policy demoPlatform demoHasher 0 [] "alice" "12345" (by decide)).1 (by decide),
    (register_length_policy demoPlatform demoHasher 0 [] "alice" "" (by decide)).1 (by decide),
    (register_length_policy demoPlatform demoHasher 0 [] "alice" "123456" (by decide)).2
      (by decide) (by decide) (by decide)⟩


/-! ## The middleware and the token round trip -/

theorem splitSpace_of_no_space (cs : List Char) (h : ' ' ∉ cs) : splitSpace cs = [cs] := by
  induction cs with
  | nil => rfl
  | cons c cs ih =>
    have hc : c ≠ ' ' := fun e => h (by simp [e])
    have hcs : ' ' ∉ cs := fun e => h (List.mem_cons_of_mem _ e)
    simp [splitSpace, hc, ih hcs]

theorem bearerToken_bearer (t : String) (hns : ' ' ∉ t.data) (hne : t ≠ "") :
    bearerToken (some ("Bearer " ++ t)) = some t := by
  have hd : t.data ≠ [] := by
    intro e
    apply hne
    exact String.ext e
  have hsplit : splitSpace ("Bearer " ++ t).data = ['B', 'e', 'a', 'r', 'e', 'r'] :: [t.data] := by
    have : ("Bearer " ++ t).data = 'B' :: 'e' :: 'a' :: 'r' :: 'e' :: 'r' :: ' ' :: t.data := by
      rw [String.data_append]
      rfl
    rw [this]
    simp [splitSpace, splitSpace_of_no_space t.data hns]
  unfold bearerToken
  simp only [hsplit]
  simp [hd]

/-- C2: `authenticateToken` answers 401 when there is no `Authorization` header or
the header has no non-empty second segment between single spaces; it answers 403
when such a segment is there and `jwt.verify` fails on it; it calls `next()` with
`req.user` set to the verified payload exactly when `jwt.verify` succeeds on that
segment.  A rejected request gets the middleware's response and the route
handler has no part in the result; every rejection is either the 401 of a
missing token or the 403 of a failed verification, never both. -/
theorem authenticateToken_cases (J : Jwt) (now : Nat) (authHeader : Option String) :
    ((authHeader = none ∨
        ∃ h, authHeader = some h ∧
          ((splitSpace h.data)[1]? = none ∨ (splitSpace h.data)[1]? = some [])) →
      authenticateToken J now authHeader =
        .reject { status := 401, body := .message "Access token missing" }) ∧
    (∀ h t, authHeader = some h → (splitSpace h.data)[1]? = some t → t ≠ [] →
      jwtVerify J (String.mk t) now = none →
      authenticateToken J now authHeader =
        .reject { status := 403, body := .message "Invalid or expired token" }) ∧
    (∀ h t c, authHeader = some h → (splitSpace h.data)[1]? = some t → t ≠ [] →
      jwtVerify J (String.mk t) now = some c →
      authenticateToken J now authHeader = .next c) ∧
    (∀ c, authenticateToken J now authHeader = .next c →
      ∃ h t, authHeader = some h ∧ (splitSpace h.data)[1]? = some t ∧ t ≠ [] ∧
        jwtVerify J (String.mk t) now = some c) ∧
    (∀ r, authenticateToken J now authHeader = .reject r →
      (r.status = 401 ∧ bearerToken authHeader = none) ∨
      (r.status = 403 ∧ r.status ≠ 401 ∧
        ∃ t, bearerToken authHeader = some t ∧ jwtVerify J t now = none)) ∧
    (∀ r db handler, authenticateToken J now authHeader = .reject r →
      secured J now authHeader db handler = (.responded r, db)) ∧
    (∀ c db handler, authenticateToken J now authHeader = .next c →
      secured J now authHeader db handler = handler c) := by
  refine ⟨?_, ?_, ?_, ?_, ?_, ?_, ?_⟩
  · rintro (h | ⟨h, rfl, h1 | h1⟩)
    · subst h
      rfl
    · simp [authenticateToken, bearerToken, h1]
    · simp [authenticateToken, bearerToken, h1]
  · intro h t hh ht hne hv
    subst hh
    simp [authenticateToken, bearerToken, ht, hne, hv]
  · intro h t c hh ht hne hv
    subst hh
    simp [authenticateToken, bearerToken, ht, hne, hv]
  · intro c hc
    cases authHeader with
    | none => simp [authenticateToken, bearerToken] at hc
    | some h =>
      cases hs : (splitSpace h.data)[1]? with
      | none => simp [authenticateToken, bearerToken, hs] at hc
      | some t =>
        by_cases hne : t = []
        · simp [authenticateToken, bearerToken, hs, hne] at hc
        · cases hv : jwtVerify J (String.mk t) now with
          | none => simp [authenticateToken, bearerToken, hs, hne, hv] at hc
          | some c' =>
            simp [authenticateToken, bearerToken, hs, hne, hv] at hc
            exact ⟨h, t, rfl, hs, hne, by rw [← hc, hv]⟩
  · intro r hr
    unfold authenticateToken at hr
    cases hb : bearerToken authHeader with
    | none =>
      simp only [hb, AuthResult.reject.injEq] at hr
      left
      exact ⟨by rw [← hr], rfl⟩
    | some t =>
      cases hv : jwtVerify J t now with
      | none =>
        simp only [hb, hv, AuthResult.reject.injEq] at hr
        right
        exact ⟨by rw [← hr], by rw [← hr]; decide, t, rfl, hv⟩
      | some c => simp [hb, hv] at hr
  · intro r db handler hr
    simp [secured, hr]
  · intro c db handler hc
    simp [secured, hc]

/-- Evaluation of C2: no header, a header without a second segment, a header
with an empty second segment, a token that does not verify, and one that does. -/
theorem authenticateToken_cases_witness :
    authenticateToken demoJwt 200 none =
        .reject { status := 401, body := .message "Access token missing" } ∧
      authenticateToken demoJwt 200 (some "Bearer") =
        .reject { status := 401, body := .message "Access token missing" } ∧
      authenticateToken demoJwt 200 (some "Bearer ") =
        .reject { status := 401, body := .message "Access token missing" } ∧
      authenticateToken demoJwt 200 (some "Bearer forged") =
        .reject { status := 403, body := .message "Invalid or expired token" } ∧
      authenticateToken demoJwt 200 (some "Bearer eyJ.alice.sig") =
        .next { username := "alice", iat := 100, exp := 3700 } :=
  ⟨(authenticateToken_cases demoJwt 200 none).1 (Or.inl rfl),
    (authenticateToken_cases demoJwt 200 (some "Bearer")).1
      (Or.inr ⟨"Bearer", rfl, Or.inl (by decide)⟩),
    (authenticateToken_cases demoJwt 200 (some "Bearer ")).1
      (Or.inr ⟨"Bearer ", rfl, Or.inr (by decide)⟩),
    (authenticateToken_cases demoJwt 200 (some "Bearer forged")).2.1 "Bearer forged"
      "forged".data rfl (by decide) (by decide) (by decide),
    (authenticateToken_cases demoJwt 200 (some "Bearer eyJ.alice.sig")).2.2.1
      "Bearer eyJ.alice.sig" "eyJ.alice.sig".data ⟨"alice", 100, 3700⟩ rfl (by decide)
      (by decide) (by decide)⟩

theorem decNat_encNat (n : Nat) (rest : List Char) :
    decNat (encNat n ++ rest) = some (n, rest) := by
  induction n with
  | zero => simp [encNat, decNat]
  | succ n ih => simp [encNat, decNat, ih]

theorem decName_cons (c : Char) (l : List Char) (hc : c ≠ '%') :
    decName (c :: l) = c :: decName l := by
  cases l with
  | nil => simp [decName]
  | cons d l => simp [decName, hc]

theorem decName_encName (cs : List Char) : decName (encName cs) = cs := by
  induction cs with
  | nil => rfl
  | cons c cs ih =>
    unfold encName
    by_cases h1 : c = ' '
    · simp [h1, decName, ih]
    · by_cases h2 : c = '%'
      · simp [h2, decName, ih]
      · simp only [h1, h2, if_false]
        rw [decName_cons c _ h2, ih]

theorem no_space_encNat (n : Nat) : ' ' ∉ encNat n := by
  induction n with
  | zero => simp [encNat]
  | succ n ih => simp [encNat, ih]

theorem no_space_encName (cs : List Char) : ' ' ∉ encName cs := by
  induction cs with
  | nil => simp [encName]
  | cons c cs ih =>
    unfold encName
    by_cases h1 : c = ' '
    · simp [h1, ih]
    · by_cases h2 : c = '%'
      · simp [h2, ih]
      · simp only [h1, h2, if_false, List.mem_cons, not_or]
        exact ⟨fun e => h1 e.symm, ih⟩

/-- The unary codec decodes every string it produces back to the payload. -/
theorem unaryJwt_round_trip (c : Claims) : unaryJwt.decode (unaryJwt.encode c) = some c := by
  simp [unaryJwt, decNat_encNat, decName_encName]

/-- The strings of the unary codec are non-empty and free of spaces. -/
theorem unaryJwt_shape (c : Claims) :
    ' ' ∉ (unaryJwt.encode c).data ∧ unaryJwt.encode c ≠ "" := by
  refine ⟨?_, ?_⟩
  · simp [unaryJwt, no_space_encNat, no_space_encName]
  · intro h
    have hd := congrArg String.data h
    cases hi : c.iat <;> simp [unaryJwt, encNat, hi] at hd

/-- C3: the token a successful login of `u` returns at clock `now0`, sent as
`Authorization: Bearer <token>`, passes `authenticateToken` at every clock value
below `now0 + 3600` with `req.user` the payload of username `u` issued at `now0`,
and is answered 403 at every clock value from `now0 + 3600` on.  Of the signing
codec it is assumed that it decodes every string it signed back to the payload
signed, and that its strings are non-empty and free of spaces. -/
theorem token_round_trip (H : Hasher) (J : Jwt) (now0 now : Nat) (db : Store) (u : String)
    (p : JsVal) (token : String)
    (hlogin : login H J now0 db u p =
      .responded { status := 200, body := .token "Login successful" token })
    (hround : ∀ c : Claims, J.decode (J.encode c) = some c)
    (hshape : ∀ c : Claims, ' ' ∉ (J.encode c).data ∧ J.encode c ≠ "") :
    (now < now0 + 3600 →
        authenticateToken J now (some ("Bearer " ++ token)) =
          .next { username := u, iat := now0, exp := now0 + 3600 }) ∧
      (now0 + 3600 ≤ now →
        authenticateToken J now (some ("Bearer " ++ token)) =
          .reject { status := 403, body := .message "Invalid or expired token" }) := by
  have htok : token = J.encode { username := u, iat := now0, exp := now0 + 3600 } := by
    unfold login at hlogin
    cases hf : findOne db u with
    | none => simp [hf, respond] at hlogin
    | some user =>
      have hname := findOne_username hf
      simp only [hf] at hlogin
      cases hc : bcryptCompare H p user.password with
      | none => simp [hc, internalError, respond] at hlogin
      | some b =>
        cases b with
        | false => simp [hc, respond] at hlogin
        | true =>
          simp [hc, hname, jwtSign] at hlogin
          exact hlogin.symm
  subst htok
  have hb := bearerToken_bearer (J.encode { username := u, iat := now0, exp := now0 + 3600 })
    (hshape _).1 (hshape _).2
  have hdec := hround { username := u, iat := now0, exp := now0 + 3600 }
  refine ⟨?_, ?_⟩
  · intro hlt
    have : ¬ now0 + 3600 ≤ now := by omega
    simp [authenticateToken, hb, jwtVerify, hdec, this]
  · intro hge
    simp [authenticateToken, hb, jwtVerify, hdec, hge]

theorem login_alice_unary :
    login demoHasher unaryJwt 0 [newUser demoHasher 0 "alice" "secret1"] "alice"
        (.str "secret1") =
      .responded
        { status := 200,
          body := .token "Login successful" (jwtSign unaryJwt "alice" 3600 0) } := by
  simp [login, findOne, newUser, demoHasher, bcryptCompare]

/-- Evaluation of C3 with the unary codec: `alice` logs in at clock 0; her token
is accepted at 3599 and refused at 3600. -/
theorem token_round_trip_witness :
    authenticateToken unaryJwt 3599
        (some ("Bearer " ++ jwtSign unaryJwt "alice" 3600 0)) =
        .next { username := "alice", iat := 0, exp := 0 + 3600 } ∧
      authenticateToken unaryJwt 3600
        (some ("Bearer " ++ jwtSign unaryJwt "alice" 3600 0)) =
        .reject { status := 403, body := .message "Invalid or expired token" } :=
  ⟨(token_round_trip demoHasher unaryJwt 0 3599 [newUser demoHasher 0 "alice" "secret1"]
      "alice" (.str "secret1") (jwtSign unaryJwt "alice" 3600 0) login_alice_unary
      unaryJwt_round_trip unaryJwt_shape).1 (by decide),
    (token_round_trip demoHasher unaryJwt 0 3600 [newUser demoHasher 0 "alice" "secret1"]
      "alice" (.str "secret1") (jwtSign unaryJwt "alice" 3600 0) login_alice_unary
      unaryJwt_round_trip unaryJwt_shape).2 (by decide)⟩

/-! ## Contributions -/

theorem findOne_pushContribution (db : Store) (n x : String) :
    findOne (pushContribution db n x) n =
      (findOne db n).map fun u => { u with contributions := u.contributions ++ [x] } :=
  findOne_updateFirst_same n
    (fun u => { u with contributions := u.contributions ++ [x] }) (fun _ => rfl) db

theorem handle_listContributions (P : Platform) (H : Hasher) (J : Jwt) (db : Store) (t : Tick)
    (a : Option String) (c : Claims) (hauth : authenticateToken J t.now a = .next c) :
    handle P H J db t (.listContributions a) = (listContributions db c, db) := by
  simp [handle, secured, hauth]

/-- C6: for a user `u` found in the store with contributions `L` and a non-empty
string `x`, an authenticated `POST /contribution` of `x` answers 200 and replaces
`u`'s document in place by the same document with contributions `L ++ [x]` (no
test of whether `x` occurs in `L`; username, password and all other documents as
before); every authenticated `GET /contribution` for `u` then answers 200 with
`L ++ [x]`.  A `GET /contribution` leaves the store as it is, so a second one
answers the same as the first. -/
theorem addContribution_appends (P : Platform) (H : Hasher) (J : Jwt) (db : Store) (t : Tick)
    (a : Option String) (c : Claims) (user : User) (x : String)
    (hauth : authenticateToken J t.now a = .next c)
    (huser : findOne db c.username = some user) (hx : x ≠ "") :
    handle P H J db t (.addContribution a (.str x)) =
        (respond 200 "Contribution added successfully", pushContribution db c.username x) ∧
      (∃ pre post, db = pre ++ user :: post ∧ (∀ y ∈ pre, y.username ≠ c.username) ∧
        pushContribution db c.username x =
          pre ++ { user with contributions := user.contributions ++ [x] } :: post) ∧
      (∀ (t2 : Tick) (a2 : Option String) (c2 : Claims),
        authenticateToken J t2.now a2 = .next c2 → c2.username = c.username →
        handle P H J (pushContribution db c.username x) t2 (.listContributions a2) =
          (.responded { status := 200, body := .contributions (user.contributions ++ [x]) },
            pushContribution db c.username x)) ∧
      (∀ (db0 : Store) (t1 t2 : Tick) (a1 a2 : Option String) (c1 c2 : Claims),
        authenticateToken J t1.now a1 = .next c1 →
        authenticateToken J t2.now a2 = .next c2 → c2.username = c1.username →
        (handle P H J db0 t1 (.listContributions a1)).2 = db0 ∧
        (handle P H J (handle P H J db0 t1 (.listContributions a1)).2 t2
            (.listContributions a2)).1 =
          (handle P H J db0 t1 (.listContributions a1)).1) := by
  refine ⟨?_, ?_, ?_, ?_⟩
  · simp [handle, secured, hauth, addContribution, truthy, hx, pushOperand, castScalar,
      pushContribution]
  · exact updateFirst_split c.username _ db user huser
  · intro t2 a2 c2 h2 hname
    rw [handle_listContributions P H J _ t2 a2 c2 h2]
    unfold listContributions
    rw [hname, findOne_pushContribution, huser]
    rfl
  · intro db0 t1 t2 a1 a2 c1 c2 h1 h2 hname
    rw [handle_listContributions P H J db0 t1 a1 c1 h1]
    refine ⟨rfl, ?_⟩
    rw [handle_listContributions P H J db0 t2 a2 c2 h2]
    simp [listContributions, hname]

/-- Evaluation of C6: `alice`, freshly registered, appends `x` and then `y`; the
list read back is `["x"]` and then `["x", "y"]`. -/
theorem addContribution_appends_witness :
    handle demoPlatform demoHasher demoJwt
        (pushContribution [newUser demoHasher 0 "alice" "secret1"] "alice" "x") ⟨200, 0⟩
        (.listContributions (some "Bearer eyJ.alice.sig")) =
        (.responded { status := 200, body := .contributions ["x"] },
          pushContribution [newUser demoHasher 0 "alice" "secret1"] "alice" "x") ∧
      handle demoPlatform demoHasher demoJwt
        (pushContribution (pushContribution [newUser demoHasher 0 "alice" "secret1"] "alice" "x")
          "alice" "y") ⟨200, 0⟩ (.listContributions (some "Bearer eyJ.alice.sig")) =
        (.responded { status := 200, body := .contributions ["x", "y"] },
          pushContribution (pushContribution [newUser demoHasher 0 "alice" "secret1"] "alice" "x")
            "alice" "y") :=
  ⟨(addContribution_appends demoPlatform demoHasher demoJwt [newUser demoHasher 0 "alice" "secret1"]
      ⟨200, 0⟩ (some "Bearer eyJ.alice.sig") ⟨"alice", 100, 3700⟩
      (newUser demoHasher 0 "alice" "secret1") "x" (by decide) (by decide)
      (by decide)).2.2.1 ⟨200, 0⟩ (some "Bearer eyJ.alice.sig") ⟨"alice", 100, 3700⟩
      (by decide) rfl,
    (addContribution_appends demoPlatform demoHasher demoJwt
      (pushContribution [newUser demoHasher 0 "alice" "secret1"] "alice" "x")
      ⟨200, 0⟩ (some "Bearer eyJ.alice.sig") ⟨"alice", 100, 3700⟩
      { username := "alice", password := "$2a$10$secret1", contributions := ["x"] } "y"
      (by decide) (by decide) (by decide)).2.2.1 ⟨200, 0⟩ (some "Bearer eyJ.alice.sig")
      ⟨"alice", 100, 3700⟩ (by decide) rfl⟩


/-! ## Password update and reset -/

theorem findOne_savePassword (db : Store) (n h : String) :
    findOne (updateFirst n (fun u => { u with password := h }) db) n =
      (findOne db n).map fun u => { u with password := h } :=
  findOne_updateFirst_same n (fun u => { u with password := h }) (fun _ => rfl) db

theorem login_after_password_change (H : Hasher) (J : Jwt) (now : Nat) (db : Store)
    (n h : String) (user : User) (q : String) (huser : findOne db n = some user) :
    login H J now (updateFirst n (fun u => { u with password := h }) db) n (.str q) =
      if H.compare q h = true then
        .responded { status := 200, body := .token "Login successful" (jwtSign J n 3600 now) }
      else respond 401 "Invalid credentials" := by
  have hname := findOne_username huser
  unfold login
  rw [findOne_savePassword, huser]
  cases hc : H.compare q h <;> simp [bcryptCompare, hc, hname]

/-- C7, as stated, fails: with a hasher that, like bcrypt, reads only the first
72 characters of a password, `alice` changes her password from 72 `a` followed
by `X` to 72 `a` followed by `Y`.  The two passwords differ, the update answers
200, and `POST /login` with the old password then answers 200 with a token, not
401. -/
theorem old_password_still_logs_in :
    longPassword 'X' ≠ longPassword 'Y' ∧ 6 ≤ utf16Length (longPassword 'Y') ∧
      findOne [newUser truncHasher 0 "alice" (longPassword 'X')] "alice" =
        some (newUser truncHasher 0 "alice" (longPassword 'X')) ∧
      truncHasher.compare (longPassword 'X')
        (newUser truncHasher 0 "alice" (longPassword 'X')).password = true ∧
      handle demoPlatform truncHasher demoJwt
        [newUser truncHasher 0 "alice" (longPassword 'X')] ⟨200, 1⟩
        (.updatePassword (some "Bearer eyJ.alice.sig") (.str (longPassword 'X'))
          (.str (longPassword 'Y'))) =
        (respond 200 "Password updated successfully",
          [newUser truncHasher 1 "alice" (longPassword 'Y')]) ∧
      login truncHasher demoJwt 300 [newUser truncHasher 1 "alice" (longPassword 'Y')]
        "alice" (.str (longPassword 'X')) =
        .responded { status := 200, body := .token "Login successful" "eyJ.alice.sig" } ∧
      login truncHasher demoJwt 300 [newUser truncHasher 1 "alice" (longPassword 'Y')]
        "alice" (.str (longPassword 'X')) ≠ respond 401 "Invalid credentials" := by
  decide

/-- C7 (amended): for a user found in the store with stored hash `user.password`
and a new password of at least 6 code units, an authenticated
`PUT /update-password` whose `currentPassword` does not verify against the stored
hash answers 401 and returns the store unchanged.  When it verifies (and the new
hash is not empty) the answer is 200 and only the password of that user's
document is replaced, contributions included as before; then `POST /login` with
the new password answers 200 with a token, given that the hasher verifies it
against its own hash, and `POST /login` with the old password answers 401
whenever the hasher does not verify the old password against the new hash. -/
theorem updatePassword_checks_current (P : Platform) (H : Hasher) (J : Jwt) (db : Store)
    (t : Tick) (a : Option String) (c : Claims) (user : User) (cur new : String)
    (hauth : authenticateToken J t.now a = .next c)
    (huser : findOne db c.username = some user) (hlen : 6 ≤ utf16Length new) :
    (H.compare cur user.password = false →
        handle P H J db t (.updatePassword a (.str cur) (.str new)) =
          (respond 401 "Current password is incorrect", db)) ∧
      (H.compare cur user.password = true → H.hash new t.salt ≠ "" →
        ∃ db', handle P H J db t (.updatePassword a (.str cur) (.str new)) =
            (respond 200 "Password updated successfully", db') ∧
          (∃ pre post, db = pre ++ user :: post ∧ (∀ y ∈ pre, y.username ≠ c.username) ∧
            db' = pre ++ { user with password := H.hash new t.salt } :: post) ∧
          findOne db' c.username = some { user with password := H.hash new t.salt } ∧
          (H.compare new (H.hash new t.salt) = true → ∀ now2,
            login H J now2 db' c.username (.str new) =
              .responded
                { status := 200,
                  body := .token "Login successful" (jwtSign J c.username 3600 now2) }) ∧
          (H.compare cur (H.hash new t.salt) = false → ∀ now2,
            login H J now2 db' c.username (.str cur) = respond 401 "Invalid credentials")) := by
  have hl : ¬ utf16Length new < 6 := by omega
  refine ⟨?_, ?_⟩
  · intro hc
    simp [handle, secured, hauth, updatePassword, lengthLt, hl, huser, bcryptCompare, hc]
  · intro hc hh
    refine ⟨updateFirst c.username (fun u => { u with password := H.hash new t.salt }) db,
      ?_, ?_, ?_, ?_, ?_⟩
    · simp [handle, secured, hauth, updatePassword, lengthLt, hl, huser, bcryptCompare, hc,
        bcryptHash, savePassword, checkRequired, hh]
    · exact updateFirst_split c.username _ db user huser
    · rw [findOne_savePassword, huser]
      rfl
    · intro hv now2
      rw [login_after_password_change H J now2 db c.username _ user new huser]
      simp [hv]
    · intro hnv now2
      rw [login_after_password_change H J now2 db c.username _ user cur huser]
      simp [hnv]

/-- Evaluation of C7 (amended): `alice` changes `secret1` into `newpass1`. -/
theorem updatePassword_checks_current_witness :
    handle demoPlatform demoHasher demoJwt [newUser demoHasher 0 "alice" "secret1"] ⟨200, 1⟩
        (.updatePassword (some "Bearer eyJ.alice.sig") (.str "wrong") (.str "newpass1")) =
        (respond 401 "Current password is incorrect",
          [newUser demoHasher 0 "alice" "secret1"]) ∧
      ∃ db', handle demoPlatform demoHasher demoJwt [newUser demoHasher 0 "alice" "secret1"]
          ⟨200, 1⟩
          (.updatePassword (some "Bearer eyJ.alice.sig") (.str "secret1") (.str "newpass1")) =
          (respond 200 "Password updated successfully", db') ∧
        (∀ now2, login demoHasher demoJwt now2 db' "alice" (.str "newpass1") =
          .responded
            { status := 200,
              body := .token "Login successful" (jwtSign demoJwt "alice" 3600 now2) }) ∧
        (∀ now2, login demoHasher demoJwt now2 db' "alice" (.str "secret1") =
          respond 401 "Invalid credentials") := by
  have h := updatePassword_checks_current demoPlatform demoHasher demoJwt
    [newUser demoHasher 0 "alice" "secret1"] ⟨200, 1⟩ (some "Bearer eyJ.alice.sig")
    ⟨"alice", 100, 3700⟩ (newUser demoHasher 0 "alice" "secret1")
  refine ⟨(h "wrong" "newpass1" (by decide) (by decide) (by decide)).1 (by decide), ?_⟩
  obtain ⟨db', h1, _, _, h4, h5⟩ :=
    (h "secret1" "newpass1" (by decide) (by decide) (by decide)).2 (by decide) (by decide)
  exact ⟨db', h1, h4 (by decide), h5 (by decide)⟩

/-- C10: `POST /reset-password` of `(u, n)` with `n` a string takes no token and
no current password.  With fewer than 6 code units in `n` it answers 400 and
returns the store unchanged, whether `u` exists or not; otherwise, with `u`
absent it answers 404 and returns the store unchanged; otherwise (the new hash
not being empty) it answers 200 and only the password of `u`'s document is
replaced by the new hash, after which `POST /login` of `(u, n)` answers 200 with
a token, given that the hasher verifies `n` against its own hash. -/
theorem resetPassword_policy (P : Platform) (H : Hasher) (J : Jwt) (db : Store) (t : Tick) (u n : String) :
    (utf16Length n < 6 →
        handle P H J db t (.resetPassword u (.str n)) =
          (respond 400 "New password must be at least 6 characters long", db)) ∧
      (6 ≤ utf16Length n → findOne db u = none →
        handle P H J db t (.resetPassword u (.str n)) = (respond 404 "User not found", db)) ∧
      (∀ user, 6 ≤ utf16Length n → findOne db u = some user → H.hash n t.salt ≠ "" →
        ∃ db', handle P H J db t (.resetPassword u (.str n)) =
            (respond 200 "Password reset successfully", db') ∧
          (∃ pre post, db = pre ++ user :: post ∧ (∀ y ∈ pre, y.username ≠ u) ∧
            db' = pre ++ { user with password := H.hash n t.salt } :: post) ∧
          (H.compare n (H.hash n t.salt) = true → ∀ now2,
            login H J now2 db' u (.str n) =
              .responded
                { status := 200,
                  body := .token "Login successful" (jwtSign J u 3600 now2) })) := by
  refine ⟨?_, ?_, ?_⟩
  · intro hl
    simp [handle, resetPassword, lengthLt, hl]
  · intro hlen hu
    have hl : ¬ utf16Length n < 6 := by omega
    simp [handle, resetPassword, lengthLt, hl, hu]
  · intro user hlen huser hh
    have hl : ¬ utf16Length n < 6 := by omega
    refine ⟨updateFirst u (fun x => { x with password := H.hash n t.salt }) db, ?_, ?_, ?_⟩
    · simp [handle, resetPassword, lengthLt, hl, huser, bcryptHash, savePassword,
        checkRequired, hh]
    · exact updateFirst_split u _ db user huser
    · intro hv now2
      rw [login_after_password_change H J now2 db u _ user n huser]
      simp [hv]

/-- Evaluation of C10 on a store holding `alice`: a short password is refused for
`alice` and for the unknown `bob`, a long one is refused for `bob` with 404 and
accepted for `alice`, who can then log in with it. -/
theorem resetPassword_policy_witness :
    handle demoPlatform demoHasher demoJwt [newUser demoHasher 0 "alice" "secret1"] ⟨200, 1⟩
        (.resetPassword "bob" (.str "short")) =
        (respond 400 "New password must be at least 6 characters long",
          [newUser demoHasher 0 "alice" "secret1"]) ∧
      handle demoPlatform demoHasher demoJwt [newUser demoHasher 0 "alice" "secret1"] ⟨200, 1⟩
        (.resetPassword "bob" (.str "longer1")) =
        (respond 404 "User not found", [newUser demoHasher 0 "alice" "secret1"]) ∧
      ∃ db', handle demoPlatform demoHasher demoJwt [newUser demoHasher 0 "alice" "secret1"] ⟨200, 1⟩
          (.resetPassword "alice" (.str "longer1")) =
          (respond 200 "Password reset successfully", db') ∧
        ∀ now2, login demoHasher demoJwt now2 db' "alice" (.str "longer1") =
          .responded
            { status := 200,
              body := .token "Login successful" (jwtSign demoJwt "alice" 3600 now2) } := by
  refine ⟨(resetPassword_policy demoPlatform demoHasher demoJwt [newUser demoHasher 0 "alice" "secret1"]
      ⟨200, 1⟩ "bob" "short").1 (by decide),
    (resetPassword_policy demoPlatform demoHasher demoJwt [newUser demoHasher 0 "alice" "secret1"]
      ⟨200, 1⟩ "bob" "longer1").2.1 (by decide) (by decide), ?_⟩
  obtain ⟨db', h1, _, h3⟩ :=
    (resetPassword_policy demoPlatform demoHasher demoJwt [newUser demoHasher 0 "alice" "secret1"]
      ⟨200, 1⟩ "alice" "longer1").2.2 (newUser demoHasher 0 "alice" "secret1")
      (by decide) (by decide) (by decide)
  exact ⟨db', h1, h3 (by decide)⟩

/-! ## Requests with an absent field -/

theorem authenticateToken_reject_status (J : Jwt) (now : Nat) (a : Option String)
    (r : Response) (h : authenticateToken J now a = .reject r) :
    r.status = 401 ∨ r.status = 403 := by
  unfold authenticateToken at h
  split at h
  · simp only [AuthResult.reject.injEq] at h
    subst h
    exact Or.inl rfl
  · split at h
    · simp only [AuthResult.reject.injEq] at h
      subst h
      exact Or.inr rfl
    · simp at h

theorem secured_inTaxonomy (J : Jwt) (now : Nat) (a : Option String) (db : Store)
    (handler : Claims → Outcome × Store) (h : ∀ c, inTaxonomy (handler c).1 = true) :
    inTaxonomy (secured J now a db handler).1 = true := by
  unfold secured
  cases hres : authenticateToken J now a with
  | next c => exact h c
  | reject r =>
    rcases authenticateToken_reject_status J now a r hres with e | e <;>
      simp [inTaxonomy, e]

/-- With the fields whose `length` is read present, every request is answered
with a status of the taxonomy. -/
theorem handle_inTaxonomy (P : Platform) (H : Hasher) (J : Jwt) (db : Store) (t : Tick) (r : Request)
    (hr : lengthFieldsPresent P r = true) : inTaxonomy (handle P H J db t r).1 = true := by
  cases r with
  | register u p =>
    simp only [lengthFieldsPresent, hasLength] at hr
    simp only [handle, register]
    cases hl : lengthLt P p 6 with
    | none => simp [hl] at hr
    | some b =>
      repeat' split
      all_goals simp_all [inTaxonomy, respond, internalError]
  | login u p =>
    simp only [handle, login]
    repeat' split
    all_goals simp [inTaxonomy, respond, internalError]
  | addContribution a c =>
    apply secured_inTaxonomy
    intro cl
    simp only [addContribution]
    repeat' split
    all_goals simp [inTaxonomy, respond, internalError]
  | listContributions a =>
    apply secured_inTaxonomy
    intro cl
    simp only [listContributions]
    split <;> simp [inTaxonomy, respond]
  | updatePassword a c n =>
    apply secured_inTaxonomy
    intro cl
    simp only [lengthFieldsPresent, hasLength] at hr
    simp only [updatePassword]
    cases hl : lengthLt P n 6 with
    | none => simp [hl] at hr
    | some b =>
      repeat' split
      all_goals simp_all [inTaxonomy, respond, internalError]
  | resetPassword u n =>
    simp only [lengthFieldsPresent, hasLength] at hr
    simp only [handle, resetPassword]
    cases hl : lengthLt P n 6 with
    | none => simp [hl] at hr
    | some b =>
      repeat' split
      all_goals simp_all [inTaxonomy, respond, internalError]
  | administration a =>
    apply secured_inTaxonomy
    intro cl
    simp [inTaxonomy, administration, respond]
  | profile a =>
    apply secured_inTaxonomy
    intro cl
    simp [inTaxonomy, profile, respond]

/-- C8 fails on the code: with the `password` (or `newPassword`) field absent
from the body, `register` on a store without the username, `resetPassword`, and
`updatePassword` behind a valid token all end with the exception of
`undefined.length` leaving the handler; no response is sent by the handler.  The
`contribution` handler, by contrast, answers 400 to an absent field. -/
theorem absent_password_throws :
    register demoPlatform demoHasher 0 [] "alice" .undefined = (.threw, []) ∧
      handle demoPlatform demoHasher demoJwt [newUser demoHasher 0 "alice" "secret1"] ⟨200, 1⟩
        (.resetPassword "alice" .undefined) =
        (.threw, [newUser demoHasher 0 "alice" "secret1"]) ∧
      handle demoPlatform demoHasher demoJwt [newUser demoHasher 0 "alice" "secret1"] ⟨200, 1⟩
        (.updatePassword (some "Bearer eyJ.alice.sig") (.str "secret1") .undefined) =
        (.threw, [newUser demoHasher 0 "alice" "secret1"]) ∧
      handle demoPlatform demoHasher demoJwt [newUser demoHasher 0 "alice" "secret1"] ⟨200, 1⟩
        (.addContribution (some "Bearer eyJ.alice.sig") .undefined) =
        (respond 400 "Contribution data is required",
          [newUser demoHasher 0 "alice" "secret1"]) := by
  decide


/-! ## The store over request sequences -/

theorem register_shape (P : Platform) (H : Hasher) (salt : Nat) (db : Store) (u : String) (pw : JsVal) :
    (register P H salt db u pw).2 = db ∨
      ∃ x : User, findOne db x.username = none ∧ x.password ≠ "" ∧
        (register P H salt db u pw).2 = db ++ [x] := by
  unfold register
  split
  · exact Or.inl rfl
  · split
    · exact Or.inl rfl
    · exact Or.inl rfl
    · split
      · exact Or.inl rfl
      · rename_i hashed _
        split
        · exact Or.inl rfl
        · rename_i db' hsave
          right
          unfold saveNew at hsave
          split at hsave
          · rename_i hreq
            split at hsave
            · simp at hsave
            · rename_i hnone
              simp only [Option.some.injEq] at hsave
              simp only [Bool.and_eq_true, checkRequired, decide_eq_true_eq] at hreq
              exact ⟨_, hnone, hreq.2, hsave.symm⟩
          · simp at hsave

theorem savePassword_shape (db db' : Store) (n h : String)
    (hs : savePassword db n h = some db') :
    h ≠ "" ∧ db' = updateFirst n (fun u => { u with password := h }) db := by
  unfold savePassword at hs
  split at hs
  · rename_i hreq
    simp only [checkRequired, decide_eq_true_eq] at hreq
    simp only [Option.some.injEq] at hs
    exact ⟨hreq, hs.symm⟩
  · simp at hs

theorem updatePassword_shape (P : Platform) (H : Hasher) (salt : Nat) (db : Store) (c : Claims)
    (cur new : JsVal) :
    (updatePassword P H salt db c cur new).2 = db ∨
      ∃ n h, h ≠ "" ∧
        (updatePassword P H salt db c cur new).2 =
          updateFirst n (fun u => { u with password := h }) db := by
  unfold updatePassword
  repeat' split
  all_goals first
    | exact Or.inl rfl
    | (rename_i db' hs
       obtain ⟨h1, h2⟩ := savePassword_shape _ _ _ _ hs
       exact Or.inr ⟨_, _, h1, h2⟩)

theorem resetPassword_shape (P : Platform) (H : Hasher) (salt : Nat) (db : Store) (u : String)
    (new : JsVal) :
    (resetPassword P H salt db u new).2 = db ∨
      ∃ n h, h ≠ "" ∧
        (resetPassword P H salt db u new).2 =
          updateFirst n (fun x => { x with password := h }) db := by
  unfold resetPassword
  repeat' split
  all_goals first
    | exact Or.inl rfl
    | (rename_i db' hs
       obtain ⟨h1, h2⟩ := savePassword_shape _ _ _ _ hs
       exact Or.inr ⟨_, _, h1, h2⟩)

theorem secured_shape (J : Jwt) (now : Nat) (a : Option String) (db : Store)
    (handler : Claims → Outcome × Store) :
    (secured J now a db handler).2 = db ∨
      ∃ c, (secured J now a db handler).2 = (handler c).2 := by
  unfold secured
  split
  · exact Or.inl rfl
  · rename_i user _
    exact Or.inr ⟨user, rfl⟩

theorem addContribution_shape (P : Platform) (db : Store) (cl : Claims) (c : JsVal)
    (a : Option String) :
    (addContribution P db cl c).2 = db ∨
      ∃ f : List String → List String,
        (structuredContribution (.addContribution a c) = false → ∀ cs, cs <+: f cs) ∧
          (addContribution P db cl c).2 = applyPush db cl.username f := by
  unfold addContribution
  split
  · rename_i htruthy
    split
    · exact Or.inl rfl
    · rename_i f hf
      refine Or.inr ⟨f, ?_, rfl⟩
      intro hs cs
      cases c with
      | undefined => simp [truthy] at htruthy
      | null => simp [truthy] at htruthy
      | bool b =>
        simp only [pushOperand, castScalar, Option.some.injEq] at hf
        rw [← hf]
        exact List.prefix_append _ _
      | num text =>
        simp only [pushOperand, castScalar, Option.some.injEq] at hf
        rw [← hf]
        exact List.prefix_append _ _
      | str x =>
        simp only [pushOperand, castScalar, Option.some.injEq] at hf
        rw [← hf]
        exact List.prefix_append _ _
      | arr items => simp [structuredContribution] at hs
      | obj fields => simp [structuredContribution] at hs
  · exact Or.inl rfl

/-- Every request leaves the store as it was, appends one document with a fresh
username and a non-empty password, replaces one password by a non-empty string,
or rewrites the contributions of one document; in the last case the former list
is a prefix of the new one unless the contribution was an object or array. -/
theorem handle_shape (P : Platform) (H : Hasher) (J : Jwt) (db : Store) (t : Tick)
    (r : Request) :
    (handle P H J db t r).2 = db ∨
      (∃ x : User, findOne db x.username = none ∧ x.password ≠ "" ∧
        (handle P H J db t r).2 = db ++ [x]) ∨
      (∃ n h, h ≠ "" ∧
        (handle P H J db t r).2 = updateFirst n (fun u => { u with password := h }) db) ∨
      (∃ n, ∃ f : List String → List String,
        (structuredContribution r = false → ∀ cs, cs <+: f cs) ∧
          (handle P H J db t r).2 = applyPush db n f) := by
  cases r with
  | register u p =>
    rcases register_shape P H t.salt db u p with h | h
    · exact Or.inl h
    · exact Or.inr (Or.inl h)
  | login u p => exact Or.inl rfl
  | addContribution a c =>
    rcases secured_shape J t.now a db (fun user => addContribution P db user c) with
      h | ⟨cl, h⟩
    · exact Or.inl h
    · simp only [handle]
      rw [h]
      rcases addContribution_shape P db cl c a with h2 | ⟨f, hf, h2⟩
      · exact Or.inl h2
      · exact Or.inr (Or.inr (Or.inr ⟨cl.username, f, hf, h2⟩))
  | listContributions a =>
    rcases secured_shape J t.now a db (fun user => (listContributions db user, db)) with
      h | ⟨cl, h⟩
    · exact Or.inl h
    · exact Or.inl h
  | updatePassword a c n =>
    rcases secured_shape J t.now a db (fun user => updatePassword P H t.salt db user c n)
      with h | ⟨cl, h⟩
    · exact Or.inl h
    · simp only [handle]
      rw [h]
      rcases updatePassword_shape P H t.salt db cl c n with h2 | h2
      · exact Or.inl h2
      · exact Or.inr (Or.inr (Or.inl h2))
  | resetPassword u n =>
    rcases resetPassword_shape P H t.salt db u n with h | h
    · exact Or.inl h
    · exact Or.inr (Or.inr (Or.inl h))
  | administration a =>
    rcases secured_shape J t.now a db (fun user => (administration user, db)) with
      h | ⟨cl, h⟩
    · exact Or.inl h
    · exact Or.inl h
  | profile a =>
    rcases secured_shape J t.now a db (fun user => (profile user, db)) with h | ⟨cl, h⟩
    · exact Or.inl h
    · exact Or.inl h

theorem mem_updateFirst (n : String) (f : User → User) (db : Store) (y : User)
    (hy : y ∈ updateFirst n f db) : y ∈ db ∨ ∃ x ∈ db, y = f x := by
  induction db with
  | nil => simp [updateFirst] at hy
  | cons x db ih =>
    unfold updateFirst at hy
    by_cases hx : x.username = n
    · simp only [hx, beq_self_eq_true, if_true, List.mem_cons] at hy
      rcases hy with e | e
      · exact Or.inr ⟨x, by simp, e⟩
      · exact Or.inl (by simp [e])
    · have hb : (x.username == n) = false := by simp [hx]
      simp only [hb, Bool.false_eq_true, if_false, List.mem_cons] at hy
      rcases hy with e | e
      · exact Or.inl (by simp [e])
      · rcases ih e with h | ⟨z, hz, hzy⟩
        · exact Or.inl (by simp [h])
        · exact Or.inr ⟨z, by simp [hz], hzy⟩

theorem forall₂_updateFirst (R : User → User → Prop) (hrefl : ∀ u, R u u) (n : String)
    (f : User → User) (hf : ∀ u, R u (f u)) (db : Store) :
    List.Forall₂ R db (updateFirst n f db) := by
  induction db with
  | nil => exact List.Forall₂.nil
  | cons x db ih =>
    unfold updateFirst
    by_cases hx : x.username = n
    · simp only [hx, beq_self_eq_true, if_true]
      exact List.Forall₂.cons (hf x) (List.forall₂_same.mpr fun u _ => hrefl u)
    · have hb : (x.username == n) = false := by simp [hx]
      simp only [hb, Bool.false_eq_true, if_false]
      exact List.Forall₂.cons (hrefl x) ih

theorem handle_preserves_invariant (P : Platform) (H : Hasher) (J : Jwt) (db : Store)
    (t : Tick) (r : Request) (hnd : (db.map User.username).Nodup)
    (hpw : ∀ u ∈ db, u.password ≠ "") :
    (((handle P H J db t r).2).map User.username).Nodup ∧
      ∀ u ∈ (handle P H J db t r).2, u.password ≠ "" := by
  rcases handle_shape P H J db t r with
    h | ⟨x, hx, hxp, h⟩ | ⟨n, hh, hne, h⟩ | ⟨n, f, _, h⟩
  · rw [h]
    exact ⟨hnd, hpw⟩
  · rw [h]
    refine ⟨?_, ?_⟩
    · rw [List.map_append, List.nodup_append]
      refine ⟨hnd, by simp, ?_⟩
      intro a ha hb
      simp only [List.map_cons, List.map_nil, List.mem_singleton] at hb
      subst hb
      exact (findOne_eq_none_iff db x.username).mp hx ha
    · intro u hu
      rcases List.mem_append.mp hu with h1 | h1
      · exact hpw u h1
      · simp only [List.mem_singleton] at h1
        subst h1
        exact hxp
  · rw [h]
    refine ⟨?_, ?_⟩
    · rw [updateFirst_map_username n (fun u => { u with password := hh }) (fun _ => rfl)]
      exact hnd
    · intro u hu
      rcases mem_updateFirst n _ db u hu with h1 | ⟨z, _, hz⟩
      · exact hpw u h1
      · subst hz
        exact hne
  · rw [h]
    unfold applyPush
    refine ⟨?_, ?_⟩
    · rw [updateFirst_map_username n
        (fun u => { u with contributions := f u.contributions }) (fun _ => rfl)]
      exact hnd
    · intro u hu
      rcases mem_updateFirst n _ db u hu with h1 | ⟨z, hz, hzu⟩
      · exact hpw u h1
      · subst hzu
        exact hpw z hz

theorem run_preserves_invariant (P : Platform) (H : Hasher) (J : Jwt)
    (reqs : List (Tick × Request)) :
    ∀ db : Store, (db.map User.username).Nodup → (∀ u ∈ db, u.password ≠ "") →
      ((run P H J db reqs).map User.username).Nodup ∧
        ∀ u ∈ run P H J db reqs, u.password ≠ "" := by
  induction reqs with
  | nil =>
    intro db h1 h2
    exact ⟨h1, h2⟩
  | cons q rest ih =>
    intro db h1 h2
    obtain ⟨t, r⟩ := q
    have h := handle_preserves_invariant P H J db t r h1 h2
    exact ih _ h.1 h.2

/-- C9, as stated, fails: from the empty store, `alice` registers and appends
`x`; a further `POST /contribution` whose `contribution` is the object
`$each: [], $slice: 0` answers 200 and leaves her list empty, and one with
`$each: ["z"], $position: 0` leaves it as `["z", "x"]`.  In both cases her former
list `["x"]` is not a prefix of the new one. -/
theorem contributions_not_append_only :
    run demoPlatform demoHasher demoJwt []
        [(⟨100, 0⟩, .register "alice" (.str "secret1")),
          (⟨101, 1⟩, .addContribution (some "Bearer eyJ.alice.sig") (.str "x"))] =
        [{ username := "alice", password := "$2a$10$secret1", contributions := ["x"] }] ∧
      handle demoPlatform demoHasher demoJwt
        [{ username := "alice", password := "$2a$10$secret1", contributions := ["x"] }]
        ⟨102, 2⟩
        (.addContribution (some "Bearer eyJ.alice.sig")
          (.obj [("$each", .arr []), ("$slice", .num "0")])) =
        (respond 200 "Contribution added successfully",
          [{ username := "alice", password := "$2a$10$secret1", contributions := [] }]) ∧
      ¬ (["x"] <+: ([] : List String)) ∧
      handle demoPlatform demoHasher demoJwt
        [{ username := "alice", password := "$2a$10$secret1", contributions := ["x"] }]
        ⟨102, 2⟩
        (.addContribution (some "Bearer eyJ.alice.sig")
          (.obj [("$each", .arr [.str "z"]), ("$position", .num "0")])) =
        (respond 200 "Contribution added successfully",
          [{ username := "alice", password := "$2a$10$secret1",
             contributions := ["z", "x"] }]) ∧
      ¬ (["x"] <+: ["z", "x"]) := by
  decide

/-- C9 (amended): in the store reached from the empty store by any finite
sequence of requests handled one at a time, no two documents have the same
username and no stored password is empty; and any further request returns a
store that consists of the documents of before, in place and with their
usernames, followed by the documents newly added, so that no document is removed
and no username changes; and unless that request is a `POST /contribution` whose
`contribution` is a JSON object or array, each of those documents has a
contributions list with its former list as a prefix. -/
theorem reachable_store_invariant (P : Platform) (H : Hasher) (J : Jwt)
    (reqs : List (Tick × Request)) (t : Tick) (r : Request) :
    ((run P H J [] reqs).map User.username).Nodup ∧
      (∀ u ∈ run P H J [] reqs, u.password ≠ "") ∧
      ∃ kept added, (handle P H J (run P H J [] reqs) t r).2 = kept ++ added ∧
        List.Forall₂
          (fun a b : User => b.username = a.username ∧
            (structuredContribution r = false → a.contributions <+: b.contributions))
          (run P H J [] reqs) kept := by
  have hinv := run_preserves_invariant P H J reqs [] (by simp) (by simp)
  refine ⟨hinv.1, hinv.2, ?_⟩
  have hrefl : ∀ u : User, u.username = u.username ∧
      (structuredContribution r = false → u.contributions <+: u.contributions) :=
    fun u => ⟨rfl, fun _ => List.prefix_refl _⟩
  rcases handle_shape P H J (run P H J [] reqs) t r with
    h | ⟨x, _, _, h⟩ | ⟨n, hh, _, h⟩ | ⟨n, f, hf, h⟩
  · exact ⟨run P H J [] reqs, [], by simp [h], List.forall₂_same.mpr fun u _ => hrefl u⟩
  · exact ⟨run P H J [] reqs, [x], h, List.forall₂_same.mpr fun u _ => hrefl u⟩
  · refine ⟨_, [], by rw [h, List.append_nil], ?_⟩
    exact forall₂_updateFirst _ hrefl n _ (fun u => ⟨rfl, fun _ => List.prefix_refl _⟩) _
  · refine ⟨_, [], by rw [h, List.append_nil], ?_⟩
    unfold applyPush
    exact forall₂_updateFirst _ hrefl n _ (fun u => ⟨rfl, fun hs => hf hs _⟩) _

/-- Evaluation of C9 (amended) on a short history: `alice` registers, registers
again and appends a contribution; then her password is reset. -/
theorem reachable_store_invariant_witness :
    ((run demoPlatform demoHasher demoJwt []
        [(⟨100, 0⟩, .register "alice" (.str "secret1")),
          (⟨101, 1⟩, .register "alice" (.str "other12")),
          (⟨102, 2⟩, .addContribution (some "Bearer eyJ.alice.sig") (.str "x"))]).map
        User.username).Nodup ∧
      (∀ u ∈ run demoPlatform demoHasher demoJwt []
        [(⟨100, 0⟩, .register "alice" (.str "secret1")),
          (⟨101, 1⟩, .register "alice" (.str "other12")),
          (⟨102, 2⟩, .addContribution (some "Bearer eyJ.alice.sig") (.str "x"))],
        u.password ≠ "") ∧
      ∃ kept added, (handle demoPlatform demoHasher demoJwt
        (run demoPlatform demoHasher demoJwt []
          [(⟨100, 0⟩, .register "alice" (.str "secret1")),
            (⟨101, 1⟩, .register "alice" (.str "other12")),
            (⟨102, 2⟩, .addContribution (some "Bearer eyJ.alice.sig") (.str "x"))])
          ⟨103, 3⟩ (.resetPassword "alice" (.str "changed1"))).2 = kept ++ added ∧
        List.Forall₂
          (fun a b : User => b.username = a.username ∧
            (structuredContribution (.resetPassword "alice" (.str "changed1")) = false →
              a.contributions <+: b.contributions))
          (run demoPlatform demoHasher demoJwt []
            [(⟨100, 0⟩, .register "alice" (.str "secret1")),
              (⟨101, 1⟩, .register "alice" (.str "other12")),
              (⟨102, 2⟩, .addContribution (some "Bearer eyJ.alice.sig") (.str "x"))]) kept :=
  reachable_store_invariant demoPlatform demoHasher demoJwt _ ⟨103, 3⟩
    (.resetPassword "alice" (.str "changed1"))

end RegistrationLogin
